import Mathlib

/-
Verification of the data-collection orchestrator in `gen.py`:
a shallow embedding of its login state machine, paginated history
fetcher, image-hosting client, cleanup sweep and orchestrator loop,
together with proofs of the specified properties.
-/

namespace Gen

/-- Events observable while a source runs: the steps of the
authentication sequence and the capture steps that follow it. -/
inductive Event where
  | cookieAttempt
  | loginCheck
  | credentialAttempt
  | navigate (url : String)
  | screenshot
  | uploadImage
  | apiFetch
  deriving DecidableEq, Repr

/-- Embeds `LoginFailed.__init__`: the exception message is
`f"{name} login failed: {msg}"`, where an absent `msg` prints as `None`. -/
def loginFailedMsg (name : String) (msg : Option String) : String :=
  name ++ " login failed: " ++ msg.getD "None"

/-- The source-specific outcomes of `check_login` at the two points where
`LoginDataGenerator.login` calls it: after the cookie attempt and after
the credential attempt. -/
structure LoginEnv where
  checkAfterCookies : Bool
  checkAfterCredential : Bool
  deriving DecidableEq, Repr

/-- Embeds `LoginDataGenerator.login` (gen.py lines 140-151):
inject cookies, check; on failure try the credential flow, check again;
if both checks fail raise `LoginFailed(self.name)`.  Returns the result
together with the trace of authentication events performed. -/
def login (name : String) (env : LoginEnv) : Except String Unit × List Event :=
  if env.checkAfterCookies then
    (Except.ok (), [Event.cookieAttempt, Event.loginCheck])
  else if env.checkAfterCredential then
    (Except.ok (),
      [Event.cookieAttempt, Event.loginCheck, Event.credentialAttempt, Event.loginCheck])
  else
    (Except.error (loginFailedMsg name none),
      [Event.cookieAttempt, Event.loginCheck, Event.credentialAttempt, Event.loginCheck])

/-! ## History cursor fetcher (`BilibiliHistory.get_yesterday_history`) -/

/-- The per-item predicate under which `get_yesterday_history` increments
its counter: the view happened within [start-of-yesterday, start-of-today). -/
def inYesterday (ys ts v : Int) : Bool :=
  decide (ys ≤ v) && decide (v < ts)

/-- Embeds the inner `for view in data["data"]["list"]` loop of
`get_yesterday_history` (gen.py lines 361-368) on one page of timestamps:
items at or after `ts` (start of today) are skipped, items at or after
`ys` (start of yesterday) are counted, and the first item strictly before
`ys` sets the `exhausted` flag and breaks out of the page.  Returns the
count contributed by this page and the final `exhausted` flag. -/
def countPage (ys ts : Int) : List Int → Nat × Bool
  | [] => (0, false)
  | v :: rest =>
    if ts ≤ v then countPage ys ts rest
    else if ys ≤ v then
      let r := countPage ys ts rest
      (r.1 + 1, r.2)
    else (0, true)

/-- Embeds the outer `while not exhausted` loop of
`get_yesterday_history` (gen.py lines 339-371).  The remote log is given
as the sequence of pages the cursor endpoint returns; the cursor fields
`max`/`view_at` are taken verbatim from each response and only select the
next page, so the page sequence itself is the model.  The loop terminates
only through the `exhausted` flag; if the given pages run out first the
Python loop would keep requesting, which the model renders as `none`. -/
def get_yesterday_history (ys ts : Int) : List (List Int) → Option Nat
  | [] => none
  | page :: rest =>
    let r := countPage ys ts page
    if r.2 then some r.1
    else
      match get_yesterday_history ys ts rest with
      | none => none
      | some c => some (r.1 + c)

/-- If no item on the page is older than start-of-yesterday, the page
loop counts exactly the in-window items and does not exhaust. -/
theorem countPage_no_exhaust (ys ts : Int) (l : List Int)
    (h : ∀ v ∈ l, ys ≤ v) :
    countPage ys ts l = (l.countP (inYesterday ys ts), false) := by
  induction l with
  | nil => simp [countPage]
  | cons v rest ih =>
    have hv : ys ≤ v := h v (List.mem_cons_self _ _)
    have hrest : ∀ x ∈ rest, ys ≤ x := fun x hx => h x (List.mem_cons_of_mem _ hx)
    by_cases hts : ts ≤ v
    · have : inYesterday ys ts v = false := by
        simp [inYesterday, not_lt.mpr hts]
      simp [countPage, hts, ih hrest, List.countP_cons, this]
    · have : inYesterday ys ts v = true := by
        simp [inYesterday, hv, lt_of_not_le hts]
      simp [countPage, hts, hv, ih hrest, List.countP_cons, this]

/-- On a non-increasing page that contains an item older than
start-of-yesterday, the page loop exhausts and its count is exactly the
number of in-window items of the whole page (the items skipped after the
break are all older still, hence outside the window). -/
theorem countPage_exhaust (ys ts : Int) (l : List Int)
    (hst : l.Sorted (fun a b => b ≤ a))
    (hex : ∃ v ∈ l, v < ys) (hyt : ys < ts) :
    countPage ys ts l = (l.countP (inYesterday ys ts), true) := by
  induction l with
  | nil => simp at hex
  | cons v rest ih =>
    have hst' : rest.Sorted (fun a b => b ≤ a) := hst.of_cons
    by_cases hts : ts ≤ v
    · have hvys : ¬ v < ys := not_lt.mpr (le_of_lt (lt_of_lt_of_le hyt hts))
      have hex' : ∃ x ∈ rest, x < ys := by
        rcases hex with ⟨x, hx, hxy⟩
        rcases List.mem_cons.mp hx with rfl | hx'
        · exact absurd hxy hvys
        · exact ⟨x, hx', hxy⟩
      have hpv : inYesterday ys ts v = false := by
        simp [inYesterday, not_lt.mpr hts]
      simp [countPage, hts, ih hst' hex', List.countP_cons, hpv]
    · by_cases hys : ys ≤ v
      · have hex' : ∃ x ∈ rest, x < ys := by
          rcases hex with ⟨x, hx, hxy⟩
          rcases List.mem_cons.mp hx with rfl | hx'
          · exact absurd hxy (not_lt.mpr hys)
          · exact ⟨x, hx', hxy⟩
        have hpv : inYesterday ys ts v = true := by
          simp [inYesterday, hys, lt_of_not_le hts]
        simp [countPage, hts, hys, ih hst' hex', List.countP_cons, hpv]
      · -- first item older than yesterday: break; everything after is older still
        have hvys : v < ys := lt_of_not_le hys
        have hrest0 : rest.countP (inYesterday ys ts) = 0 := by
          apply List.countP_eq_zero.mpr
          intro x hx
          have hxv : x ≤ v := (List.sorted_cons.mp hst).1 x hx
          simp [inYesterday, not_le.mpr (lt_of_le_of_lt hxv hvys)]
        have hpv : inYesterday ys ts v = false := by
          simp [inYesterday, not_le.mpr hvys]
        simp [countPage, not_le.mpr (lt_of_lt_of_le hvys (le_of_lt hyt)), hys,
          List.countP_cons, hpv, hrest0]

/-- Once the loop has exhausted within the given pages, any further pages
the server could have produced are never requested: the result is
unchanged by appending them. -/
theorem get_yesterday_history_append_of_some (ys ts : Int)
    (pages extra : List (List Int)) (c : Nat)
    (h : get_yesterday_history ys ts pages = some c) :
    get_yesterday_history ys ts (pages ++ extra) = some c := by
  induction pages generalizing c with
  | nil => simp [get_yesterday_history] at h
  | cons page rest ih =>
    simp only [get_yesterday_history, List.cons_append] at h ⊢
    by_cases hflag : (countPage ys ts page).2
    · simpa [hflag] using h
    · simp only [hflag, if_false, Bool.false_eq_true] at h ⊢
      cases hr : get_yesterday_history ys ts rest with
      | none => simp [hr] at h
      | some c2 =>
        rw [hr] at h
        rw [List.append_eq, ih c2 hr]
        exact h

/-- Over a non-increasing remote log containing at least one item older
than start-of-yesterday, the whole page loop returns exactly the number
of items in the yesterday window, however the log is cut into pages. -/
theorem get_yesterday_history_eq_countP (ys ts : Int) (pages : List (List Int))
    (hst : pages.flatten.Sorted (fun a b => b ≤ a))
    (hex : ∃ v ∈ pages.flatten, v < ys) (hyt : ys < ts) :
    get_yesterday_history ys ts pages
      = some (pages.flatten.countP (inYesterday ys ts)) := by
  induction pages with
  | nil => simp at hex
  | cons page rest ih =>
    rw [List.flatten_cons] at hst hex ⊢
    obtain ⟨hp, hr, hpr⟩ := List.pairwise_append.mp hst
    by_cases hpe : ∃ v ∈ page, v < ys
    · have hc := countPage_exhaust ys ts page hp hpe hyt
      have hr0 : rest.flatten.countP (inYesterday ys ts) = 0 := by
        apply List.countP_eq_zero.mpr
        intro b hb
        obtain ⟨v, hv, hvy⟩ := hpe
        have hbv : b ≤ v := hpr v hv b hb
        simp [inYesterday, not_le.mpr (lt_of_le_of_lt hbv hvy)]
      simp [get_yesterday_history, hc, List.countP_append, hr0]
    · push_neg at hpe
      have hpe' : ∀ v ∈ page, ys ≤ v := hpe
      have hc := countPage_no_exhaust ys ts page hpe'
      have hex' : ∃ v ∈ rest.flatten, v < ys := by
        rcases hex with ⟨v, hv, hvy⟩
        rcases List.mem_append.mp hv with hv' | hv'
        · exact absurd hvy (not_lt.mpr (hpe' v hv'))
        · exact ⟨v, hv', hvy⟩
      simp [get_yesterday_history, hc, ih hr hex', List.countP_append]

/-- C1: over a time-ordered (non-increasing) remote log split arbitrarily
into pages, with at least one item older than start-of-yesterday,
`get_yesterday_history` returns exactly the number of items in
[start-of-yesterday, start-of-today): items on/after today are skipped,
in-window items are counted, and the page loop stops at the first older
item, so pages beyond it are never requested. -/
theorem bilibili_yesterday_count_correct (ys ts : Int) (pages : List (List Int))
    (hst : pages.flatten.Sorted (fun a b => b ≤ a))
    (hex : ∃ v ∈ pages.flatten, v < ys) (hyt : ys < ts) :
    get_yesterday_history ys ts pages
      = some (pages.flatten.countP (inYesterday ys ts))
    ∧ ∀ extra, get_yesterday_history ys ts (pages ++ extra)
      = some (pages.flatten.countP (inYesterday ys ts)) := by
  have h := get_yesterday_history_eq_countP ys ts pages hst hex hyt
  exact ⟨h, fun extra => get_yesterday_history_append_of_some ys ts pages extra _ h⟩

/-- Concrete run of C1: log [250, 180, 150, 90] split into two pages,
yesterday window [100, 200): two in-window items, count 2. -/
theorem bilibili_yesterday_count_correct_witness :
    get_yesterday_history 100 200 [[250, 180], [150, 90]] = some 2 := by
  have h := bilibili_yesterday_count_correct 100 200 [[250, 180], [150, 90]]
    (by decide) (by decide) (by decide)
  rw [h.1]
  decide

/-! ## Orchestrator (`run`, gen.py lines 561-584) -/

/-- One configured generator as the orchestrator sees it: its `name`
and what its `generate()` call does — return a list of result entries,
or raise (modelled as `Except.error` with the exception message). -/
structure GenOutcome where
  name : String
  result : Except String (List (String × String))

/-- The generator raised (its `generate()` ended in an exception). -/
def genFailed (g : GenOutcome) : Bool :=
  match g.result with
  | Except.ok _ => false
  | Except.error _ => true

/-- The entries a generator contributed, if it succeeded. -/
def genEntries (g : GenOutcome) : Option (List (String × String)) :=
  match g.result with
  | Except.ok d => some d
  | Except.error _ => none

/-- Embeds the `for generator in generators` loop of `run` (gen.py lines
561-573): on success `full_data.update(data)` (modelled as appending the
entries, so that later entries win on lookup, as in a Python dict); on
any exception, log the failure with the generator's name and save a
diagnostic screenshot at `DEBUG_FOLDER/{name}.png`, then continue.
`acc` is the aggregate so far and `shots` the names logged/screenshotted
for failed generators so far. -/
def runLoopAux (acc : List (String × String)) (shots : List String) :
    List GenOutcome → List (String × String) × List String
  | [] => (acc, shots)
  | g :: rest =>
    match g.result with
    | Except.ok data => runLoopAux (acc ++ data) shots rest
    | Except.error _ => runLoopAux acc (shots ++ [g.name]) rest

/-- The orchestrator loop started on an empty aggregate. -/
def runLoop (gens : List GenOutcome) : List (String × String) × List String :=
  runLoopAux [] [] gens

/-- Last-wins lookup in the aggregate, matching Python dict semantics
under the append model of `dict.update`. -/
def dlookup (d : List (String × String)) (k : String) : Option String :=
  (d.reverse.find? (fun kv => kv.1 == k)).map Prod.snd

theorem runLoopAux_eq (acc : List (String × String)) (shots : List String)
    (gens : List GenOutcome) :
    runLoopAux acc shots gens
      = (acc ++ (gens.filterMap genEntries).flatten,
         shots ++ (gens.filter genFailed).map GenOutcome.name) := by
  induction gens generalizing acc shots with
  | nil => simp [runLoopAux]
  | cons g rest ih =>
    cases hg : g.result with
    | ok data =>
      simp [runLoopAux, hg, ih, List.filterMap_cons, List.filter_cons,
        genEntries, genFailed]
    | error e =>
      simp [runLoopAux, hg, ih, List.filterMap_cons, List.filter_cons,
        genEntries, genFailed]

/-- C2: the orchestrator isolates failures.  After the loop, the
aggregate is exactly the concatenation, in order, of the entries of every
generator that succeeded, and the failure log / diagnostic screenshots
name exactly the generators that raised, in order: one source's failure
never drops another source's entries. -/
theorem run_isolates_failures (gens : List GenOutcome) :
    runLoop gens
      = ((gens.filterMap genEntries).flatten,
         (gens.filter genFailed).map GenOutcome.name) := by
  simpa using runLoopAux_eq [] [] gens

/-! ## Login fallback (C3, C4) -/

/-- C3: whenever the verification check succeeds right after the cookie
attempt, the credential-login step never appears in the trace of
`login`. -/
theorem cookie_success_skips_credential (name : String) (env : LoginEnv)
    (h : env.checkAfterCookies = true) :
    Event.credentialAttempt ∉ (login name env).2 := by
  simp [login, h]

/-- Concrete run of C3: with the cookie check passing, the trace is
exactly cookie-attempt then check, with no credential attempt. -/
theorem cookie_success_skips_credential_witness :
    Event.credentialAttempt ∉ (login "leetcode_summary" ⟨true, false⟩).2 :=
  cookie_success_skips_credential "leetcode_summary" ⟨true, false⟩ rfl

/-- Embeds the shape shared by every `LoginDataGenerator.generate`:
`await self.login()` first — an exception there propagates — and only
then the capture, whose successful entries are `capture`. -/
def generateWithLogin (name : String) (env : LoginEnv)
    (capture : List (String × String)) : Except String (List (String × String)) :=
  match (login name env).1 with
  | Except.error e => Except.error e
  | Except.ok _ => Except.ok capture

/-- C4: when verification fails after both the cookie and the credential
attempts, `login` raises `LoginFailed` carrying the source's name, the
source's `generate()` propagates it, and the orchestrator's aggregate is
exactly what it would have been without that source: no entry of it is
added. -/
theorem login_exhausted_no_entry (name : String) (env : LoginEnv)
    (capture : List (String × String)) (pre post : List GenOutcome)
    (h1 : env.checkAfterCookies = false) (h2 : env.checkAfterCredential = false) :
    (login name env).1 = Except.error (loginFailedMsg name none)
    ∧ generateWithLogin name env capture = Except.error (loginFailedMsg name none)
    ∧ (runLoop (pre
          ++ GenOutcome.mk name (generateWithLogin name env capture) :: post)).1
        = (runLoop (pre ++ post)).1 := by
  have hl : (login name env).1 = Except.error (loginFailedMsg name none) := by
    simp [login, h1, h2]
  have hg : generateWithLogin name env capture
      = Except.error (loginFailedMsg name none) := by
    simp [generateWithLogin, hl]
  refine ⟨hl, hg, ?_⟩
  simp [run_isolates_failures, List.filterMap_append, List.filterMap_cons,
    genEntries, hg]

/-- Concrete run of C4: both checks fail for source "geek_time_calendar";
generate raises with the source's name in the message and the aggregate
over three sources is first ++ third. -/
theorem login_exhausted_no_entry_witness :
    generateWithLogin "geek_time_calendar" ⟨false, false⟩ [("k", "v")]
      = Except.error "geek_time_calendar login failed: None"
    ∧ (runLoop [⟨"a", Except.ok [("a", "1")]⟩,
        ⟨"geek_time_calendar",
          generateWithLogin "geek_time_calendar" ⟨false, false⟩ [("k", "v")]⟩,
        ⟨"c", Except.ok [("c", "3")]⟩]).1
      = [("a", "1"), ("c", "3")] := by
  have h := login_exhausted_no_entry "geek_time_calendar" ⟨false, false⟩
    [("k", "v")] [⟨"a", Except.ok [("a", "1")]⟩] [⟨"c", Except.ok [("c", "3")]⟩]
    rfl rfl
  refine ⟨h.2.1, ?_⟩
  rw [show ([⟨"a", Except.ok [("a", "1")]⟩,
        ⟨"geek_time_calendar",
          generateWithLogin "geek_time_calendar" ⟨false, false⟩ [("k", "v")]⟩,
        ⟨"c", Except.ok [("c", "3")]⟩] : List GenOutcome)
      = [⟨"a", Except.ok [("a", "1")]⟩]
        ++ ⟨"geek_time_calendar",
            generateWithLogin "geek_time_calendar" ⟨false, false⟩ [("k", "v")]⟩
          :: [⟨"c", Except.ok [("c", "3")]⟩] from rfl, h.2.2]
  simp [runLoop, runLoopAux]

/-! ## Exit behavior (C5) -/

/-- The actions `run` takes after the source loop, in order. -/
inductive FinalAction where
  | updateReadme (data : List (String × String))
  | cleanupImages
  deriving DecidableEq

/-- Embeds the tail of `run` (gen.py lines 575-584): with an empty
aggregate, log an error and return `False` doing nothing else; otherwise
hand the aggregate to `update_readme` and run the image host `cleanup`,
returning `True`. -/
def finishRun (full_data : List (String × String)) : Bool × List FinalAction :=
  if full_data.isEmpty then (false, [])
  else (true, [FinalAction.updateReadme full_data, FinalAction.cleanupImages])

/-- Embeds `main` (gen.py lines 587-589): exit status 1 exactly when
`run` returned `False`. -/
def mainExitCode (full_data : List (String × String)) : Nat :=
  if (finishRun full_data).1 then 0 else 1

/-- C5: the process exits nonzero iff the aggregate is empty; with a
non-empty aggregate the templating step receives the aggregate and the
image-hosting cleanup runs. -/
theorem run_exit_behavior (full_data : List (String × String)) :
    (mainExitCode full_data ≠ 0 ↔ full_data = [])
    ∧ (full_data ≠ [] →
        (finishRun full_data).2
          = [FinalAction.updateReadme full_data, FinalAction.cleanupImages]) := by
  constructor
  · by_cases h : full_data = []
    · simp [mainExitCode, finishRun, h]
    · simp [mainExitCode, finishRun, List.isEmpty_iff, h]
  · intro h
    simp [finishRun, List.isEmpty_iff, h]

/-- Concrete run of C5: the empty aggregate exits 1; a singleton
aggregate is templated and cleaned up. -/
theorem run_exit_behavior_witness :
    mainExitCode [] = 1
    ∧ (finishRun [("a", "u")]).2
        = [FinalAction.updateReadme [("a", "u")], FinalAction.cleanupImages] := by
  have h1 := run_exit_behavior []
  have h2 := run_exit_behavior [("a", "u")]
  refine ⟨?_, h2.2 (by simp)⟩
  have h0 := h1.1.mpr rfl
  revert h0
  decide

/-! ## Image hosting cleanup (`ImageService.cleanup`, gen.py lines 63-77) -/

/-- One item of the `/upload_history` listing, together with whether the
remote delete call for it would succeed (`false` models the delete GET
raising `httpx.HTTPError`). -/
structure UploadItem where
  created_at : Int
  filename : String
  deleteSucceeds : Bool
  deriving DecidableEq, Repr

/-- `(now - created_at).days`: the age of an artifact in whole days,
floor division of the elapsed seconds as `timedelta.days` computes it. -/
def ageDays (now created : Int) : Int :=
  Int.fdiv (now - created) 86400

/-- What the sweep did for one artifact it tried to delete: the delete
call succeeded, or it raised and was only logged. -/
inductive CleanupEvent where
  | deleted (filename : String)
  | deleteFailedLogged (filename : String)
  deriving DecidableEq, Repr

/-- The delete attempt `cleanup` makes for one eligible item. -/
def deleteAttempt (it : UploadItem) : CleanupEvent :=
  if it.deleteSucceeds then CleanupEvent.deleted it.filename
  else CleanupEvent.deleteFailedLogged it.filename

/-- Embeds `ImageService.cleanup` (gen.py lines 63-77): for every listed
item whose age is at least 7 days, issue the delete call inside a
try/except, logging a failure and moving on; younger items are left
alone.  Returns the sequence of delete attempts. -/
def cleanup (now : Int) : List UploadItem → List CleanupEvent
  | [] => []
  | it :: rest =>
    if 7 ≤ ageDays now it.created_at then deleteAttempt it :: cleanup now rest
    else cleanup now rest

/-- C6: the sweep attempts a delete for exactly the items aged 7 days or
more — so an item exactly 6 days old is retained, and a failing delete
(logged, not raised) never prevents the delete attempts for the
remaining eligible items. -/
theorem cleanup_retention (now : Int) (items : List UploadItem) :
    cleanup now items
      = (items.filter (fun it => 7 ≤ ageDays now it.created_at)).map deleteAttempt
    ∧ (∀ it ∈ items, ageDays now it.created_at = 6 →
        it ∉ items.filter (fun it => 7 ≤ ageDays now it.created_at)) := by
  constructor
  · induction items with
    | nil => simp [cleanup]
    | cons it rest ih =>
      by_cases h : 7 ≤ ageDays now it.created_at
      · simp [cleanup, h, List.filter_cons, ih]
      · simp [cleanup, h, List.filter_cons, ih]
  · intro it _ h6 hmem
    have := (List.mem_filter.mp hmem).2
    simp [h6] at this

/-- Concrete run of C6 at `now = 10 * 86400`: an item 6 days old is kept,
one 7 days old whose delete fails is attempted and logged, one 8 days old
after it is still attempted and deleted. -/
theorem cleanup_retention_witness :
    cleanup (10 * 86400)
      [⟨4 * 86400, "keep.png", true⟩,
       ⟨3 * 86400, "fail.png", false⟩,
       ⟨2 * 86400, "old.png", true⟩]
      = [CleanupEvent.deleteFailedLogged "fail.png", CleanupEvent.deleted "old.png"]
    ∧ (⟨4 * 86400, "keep.png", true⟩ : UploadItem)
        ∉ ([⟨4 * 86400, "keep.png", true⟩,
            ⟨3 * 86400, "fail.png", false⟩,
            ⟨2 * 86400, "old.png", true⟩].filter
              (fun it => 7 ≤ ageDays (10 * 86400) it.created_at)) := by
  have h := cleanup_retention (10 * 86400)
    [⟨4 * 86400, "keep.png", true⟩,
     ⟨3 * 86400, "fail.png", false⟩,
     ⟨2 * 86400, "old.png", true⟩]
  refine ⟨?_, h.2 _ (by simp) (by decide)⟩
  rw [h.1]
  decide

/-! ## Image upload (`ImageService.upload`, gen.py lines 41-61) -/

/-- The parsed response of the image host's `/upload` endpoint as the
client reads it: whether `raise_for_status` passes, the `success` flag,
the error `code`, the `images` field carried by a duplicate-content
response, and `data.url` of a fresh upload. -/
structure UploadResp where
  statusOk : Bool
  success : Bool
  code : String
  images : String
  dataUrl : String
  deriving DecidableEq, Repr

/-- Embeds the response handling of `ImageService.upload` (gen.py lines
50-61): a non-2xx status raises; `success = false` with code
`image_repeated` returns the `images` field (the pre-existing URL);
any other failure code raises; otherwise the fresh `data.url` is
returned. -/
def uploadClient (path : String) (resp : UploadResp) : Except String String :=
  if resp.statusOk = false then Except.error "HTTPStatusError"
  else if resp.success = false then
    if resp.code = "image_repeated" then Except.ok resp.images
    else Except.error ("Upload image " ++ path ++ " failed")
  else Except.ok resp.dataUrl

/-- Modelled from the spec: the remote host's content-addressed store —
`upload` of new bytes stores them under a fresh URL and answers success;
`upload` of already-uploaded bytes answers the duplicate-content
condition (`success = false`, code `image_repeated`) carrying the URL
stored when those bytes were first uploaded, and stores nothing new.
The host itself is an external collaborator, not code of this repository. -/
def hostUpload (freshUrl : String) (store : List (String × String))
    (content : String) : UploadResp × List (String × String) :=
  match store.find? (fun kv => kv.1 == content) with
  | some kv => (⟨true, false, "image_repeated", kv.2, ""⟩, store)
  | none => (⟨true, true, "", "", freshUrl⟩, store ++ [(content, freshUrl)])

/-- One client upload against the modelled host: the host handles the
bytes at `path` (its `content`), the client interprets the response. -/
def uploadVia (freshUrl : String) (store : List (String × String))
    (content path : String) : Except String String × List (String × String) :=
  let r := hostUpload freshUrl store content
  (uploadClient path r.1, r.2)

/-- C7: upload is idempotent.  Starting from a host that has never seen
these bytes, the first upload returns a URL and the second upload of the
identical bytes returns that same URL — the duplicate-content response is
not an error — and the host's retention-tracked store gains no second
artifact. -/
theorem upload_idempotent (freshUrl : String) (store : List (String × String))
    (content path path2 : String)
    (hnew : store.find? (fun kv => kv.1 == content) = none) :
    (uploadVia freshUrl store content path).1 = Except.ok freshUrl
    ∧ (uploadVia freshUrl (uploadVia freshUrl store content path).2
        content path2).1 = Except.ok freshUrl
    ∧ (uploadVia freshUrl (uploadVia freshUrl store content path).2
        content path2).2 = (uploadVia freshUrl store content path).2 := by
  have hfind : (store ++ [(content, freshUrl)]).find? (fun kv => kv.1 == content)
      = some (content, freshUrl) := by
    rw [List.find?_append, hnew]
    simp
  refine ⟨?_, ?_, ?_⟩ <;>
    simp [uploadVia, hostUpload, hnew, hfind, uploadClient]

/-- Concrete run of C7: an empty host store, content "imgbytes": both
uploads return "https://sm.ms/i/1" and the store holds one artifact. -/
theorem upload_idempotent_witness :
    (uploadVia "https://sm.ms/i/1" [] "imgbytes" "a.png").1
      = Except.ok "https://sm.ms/i/1"
    ∧ (uploadVia "https://sm.ms/i/1"
        (uploadVia "https://sm.ms/i/1" [] "imgbytes" "a.png").2
        "imgbytes" "a.png").1 = Except.ok "https://sm.ms/i/1" := by
  have h := upload_idempotent "https://sm.ms/i/1" [] "imgbytes" "a.png" "a.png" rfl
  exact ⟨h.1, h.2.1⟩

/-! ## Concrete sources: authentication order and result shape (C8) -/

/-- An authentication-machine step, as opposed to a capture step. -/
def isAuthEvent : Event → Bool
  | Event.cookieAttempt => true
  | Event.loginCheck => true
  | Event.credentialAttempt => true
  | _ => false

/-- Embeds the common shape of every `LoginDataGenerator.generate`:
`await self.login()` first — an exception there propagates and nothing
else runs — then the capture steps `ce`, then return `entries`. -/
def loginThenCapture (n : String) (env : LoginEnv) (ce : List Event)
    (entries : List (String × String)) :
    Except String (List (String × String)) × List Event :=
  match (login n env).1 with
  | Except.error e => (Except.error e, (login n env).2)
  | Except.ok _ => (Except.ok entries, (login n env).2 ++ ce)

/-- Embeds `GithubCalendar.generate` (gen.py lines 117-130): navigate to
the public profile page, screenshot the contributions calendar, upload
it, return the two-entry map.  Note: it performs no login step of any
kind — `GithubCalendar` is not a `LoginDataGenerator` and `generate`
never calls `login`. -/
def githubCalendar_generate (username imageUrl today : String) :
    Except String (List (String × String)) × List Event :=
  (Except.ok [("github_calendar", imageUrl),
     ("github_calendar_update_date", today)],
   [Event.navigate ("https://github.com/" ++ username), Event.screenshot,
    Event.uploadImage])

/-- Embeds `LeetcodeSummary.generate` (gen.py lines 213-237). -/
def leetcodeSummary_generate (env : LoginEnv) (username imageUrl today : String) :
    Except String (List (String × String)) × List Event :=
  loginThenCapture "leetcode_summary" env
    [Event.navigate ("https://leetcode.cn/u/" ++ username ++ "/"),
     Event.screenshot, Event.uploadImage]
    [("leetcode_summary", imageUrl), ("leetcode_summary_update_date", today)]

/-- Embeds `GeekTimeCalendar.generate` (gen.py lines 287-302). -/
def geekTimeCalendar_generate (env : LoginEnv) (imageUrl today : String) :
    Except String (List (String × String)) × List Event :=
  loginThenCapture "geek_time_calendar" env
    [Event.navigate "https://time.geekbang.org/dashboard/usercenter",
     Event.screenshot, Event.uploadImage]
    [("geek_time_calendar", imageUrl), ("geek_time_calendar_update_date", today)]

/-- Embeds `BilibiliHistory.generate` (gen.py lines 396-411): login, then
the API-driven history fetch and SVG rendering. -/
def bilibiliHistory_generate (env : LoginEnv) (imageUrl today : String) :
    Except String (List (String × String)) × List Event :=
  loginThenCapture "bilibili_history" env [Event.apiFetch]
    [("bilibili_history", imageUrl), ("bilibili_history_update_date", today)]

/-- Embeds `WeReadHistory.generate` (gen.py lines 476-494). -/
def wereadHistory_generate (env : LoginEnv) (imageUrl today : String) :
    Except String (List (String × String)) × List Event :=
  loginThenCapture "weread_history" env [Event.apiFetch]
    [("weread_history", imageUrl), ("weread_history_update_date", today)]

/-- A source runs the whole authentication machine first: its trace
starts with the machine's full trace, a `LoginFailed` propagates with no
capture step run, and on successful login the result map has exactly the
keys `n` and `n ++ "_update_date"`, the latter valued at today. -/
def RunsLoginFirst (n : String) (env : LoginEnv) (imageUrl today : String)
    (g : Except String (List (String × String)) × List Event) : Prop :=
  (∃ rest, g.2 = (login n env).2 ++ rest)
  ∧ (∀ e, (login n env).1 = Except.error e → g = (Except.error e, (login n env).2))
  ∧ ((login n env).1 = Except.ok () →
      g.1 = Except.ok [(n, imageUrl), (n ++ "_update_date", today)])

theorem loginThenCapture_runsLoginFirst (n : String) (env : LoginEnv)
    (ce : List Event) (imageUrl today : String) :
    RunsLoginFirst n env imageUrl today
      (loginThenCapture n env ce
        [(n, imageUrl), (n ++ "_update_date", today)]) := by
  cases hl : (login n env).1 with
  | error e =>
    refine ⟨⟨[], by simp [loginThenCapture, hl]⟩, ?_, ?_⟩
    · intro e' he'
      rw [hl] at he'
      cases he'
      simp [loginThenCapture, hl]
    · intro hok
      rw [hl] at hok
      cases hok
  | ok u =>
    refine ⟨⟨ce, by simp [loginThenCapture, hl]⟩, ?_, ?_⟩
    · intro e' he'
      rw [hl] at he'
      cases he'
    · intro _
      simp [loginThenCapture, hl]

/-- C8 counterexample: `GithubCalendar` is a concrete source whose
`generate` runs no authentication step at all — its event trace contains
no cookie attempt, no login check and no credential attempt — yet it
still captures and returns its result map.  So not every concrete source
runs the Authentication State Machine before its capture. -/
theorem github_calendar_runs_no_login :
    ((githubCalendar_generate "j178" "URL" "2022-10-12").2.filter isAuthEvent = [])
    ∧ (githubCalendar_generate "j178" "URL" "2022-10-12").1
        = Except.ok [("github_calendar", "URL"),
            ("github_calendar_update_date", "2022-10-12")] :=
  ⟨rfl, rfl⟩

/-- C8 as amended: every concrete source with a login sequence (the four
`LoginDataGenerator` subclasses) runs the Authentication State Machine to
completion before its capture, propagating `LoginFailed` on exhaustion;
`GithubCalendar` performs no authentication; and every concrete source's
result map has exactly the keys `name` and `name ++ "_update_date"`, the
latter holding the `get_today()` date stamp. -/
theorem sources_auth_and_result_shape (env : LoginEnv)
    (username imageUrl today : String) :
    ((githubCalendar_generate username imageUrl today).2.filter isAuthEvent = []
      ∧ (githubCalendar_generate username imageUrl today).1
          = Except.ok [("github_calendar", imageUrl),
              ("github_calendar_update_date", today)])
    ∧ RunsLoginFirst "leetcode_summary" env imageUrl today
        (leetcodeSummary_generate env username imageUrl today)
    ∧ RunsLoginFirst "geek_time_calendar" env imageUrl today
        (geekTimeCalendar_generate env imageUrl today)
    ∧ RunsLoginFirst "bilibili_history" env imageUrl today
        (bilibiliHistory_generate env imageUrl today)
    ∧ RunsLoginFirst "weread_history" env imageUrl today
        (wereadHistory_generate env imageUrl today) := by
  refine ⟨⟨rfl, rfl⟩, ?_, ?_, ?_, ?_⟩ <;>
    exact loginThenCapture_runsLoginFirst _ env _ imageUrl today

/-- Concrete run of C8 as amended: with the cookie check passing, the
leetcode source returns its two-key map. -/
theorem sources_auth_and_result_shape_witness :
    (leetcodeSummary_generate ⟨true, false⟩ "john" "URL" "2022-10-12").1
      = Except.ok [("leetcode_summary", "URL"),
          ("leetcode_summary_update_date", "2022-10-12")] := by
  have h := sources_auth_and_result_shape ⟨true, false⟩ "john" "URL" "2022-10-12"
  exact h.2.1.2.2 rfl

/-! ## Watch-history cache (C9) -/

/-- Embeds the Python dict assignment `history[yesterday] = count` in
`BilibiliHistory.generate` (gen.py line 402) on the assoc-list model of
the loaded JSON object: overwrite the entry in place if the key exists,
otherwise append it. -/
def dictInsert (d : List (String × Nat)) (k : String) (v : Nat) :
    List (String × Nat) :=
  if d.any (fun kv => kv.1 == k) then
    d.map (fun kv => if kv.1 == k then (k, v) else kv)
  else d ++ [(k, v)]

/-- Key order used by `json.dump(..., sort_keys=True)`. -/
def keyLe (a b : String × Nat) : Prop := a.1 ≤ b.1

instance : DecidableRel keyLe :=
  fun a b => inferInstanceAs (Decidable (a.1 ≤ b.1))

instance : IsTotal (String × Nat) keyLe :=
  ⟨fun a b => le_total a.1 b.1⟩

instance : IsTrans (String × Nat) keyLe :=
  ⟨fun _ _ _ h1 h2 => le_trans h1 h2⟩

/-- Embeds `BilibiliHistory.save_histories` (gen.py lines 334-337): keys
are stringified (they already are strings, so this is the identity) and
the mapping is written out with `sort_keys=True, indent=2`; the persisted
object is modelled as the key-sorted entry list. -/
def save_histories (d : List (String × Nat)) : List (String × Nat) :=
  List.insertionSort keyLe d

theorem mem_dictInsert (d : List (String × Nat)) (k : String) (v : Nat)
    (a : String) (b : Nat) :
    (a, b) ∈ dictInsert d k v
      ↔ (((a, b) ∈ d ∧ a ≠ k) ∨ (a = k ∧ b = v)) := by
  by_cases hk : d.any (fun kv => kv.1 == k) = true
  · rw [dictInsert, if_pos hk]
    constructor
    · intro hm
      obtain ⟨kv, hkv, himg⟩ := List.mem_map.mp hm
      by_cases hkey : (kv.1 == k) = true
      · rw [if_pos hkey] at himg
        injection himg with h1 h2
        exact Or.inr ⟨h1.symm, h2.symm⟩
      · rw [if_neg hkey] at himg
        subst himg
        exact Or.inl ⟨hkv, by simpa using hkey⟩
    · rintro (⟨hm, hne⟩ | ⟨rfl, rfl⟩)
      · exact List.mem_map.mpr ⟨(a, b), hm, by rw [if_neg (by simpa using hne)]⟩
      · obtain ⟨kv, hkv, hkey⟩ := List.any_eq_true.mp hk
        exact List.mem_map.mpr ⟨kv, hkv, by rw [if_pos hkey]⟩
  · rw [dictInsert, if_neg hk]
    have hnone : ∀ kv ∈ d, kv.1 ≠ k := by
      intro kv hkv hkey
      apply hk
      simp only [List.any_eq_true]
      exact ⟨kv, hkv, by simpa using hkey⟩
    rw [List.mem_append]
    constructor
    · rintro (hm | hm)
      · exact Or.inl ⟨hm, fun hak => hnone (a, b) hm hak⟩
      · simp only [List.mem_singleton, Prod.mk.injEq] at hm
        exact Or.inr hm
    · rintro (⟨hm, _⟩ | ⟨rfl, rfl⟩)
      · exact Or.inl hm
      · exact Or.inr (List.mem_singleton.mpr rfl)

/-- C9: persisting the watch-history cache only inserts or overwrites the
entry for yesterday's date.  An entry `(a, b)` is in the saved file iff
it was loaded with `a ≠ yesterday` — so every other date keeps its exact
value and no date is removed — or it is yesterday's new count; and the
saved file is sorted by key. -/
theorem history_cache_frame (history : List (String × Nat))
    (yesterday : String) (cnt : Nat) :
    (∀ a b, (a, b) ∈ save_histories (dictInsert history yesterday cnt)
        ↔ (((a, b) ∈ history ∧ a ≠ yesterday) ∨ (a = yesterday ∧ b = cnt)))
    ∧ List.Sorted keyLe (save_histories (dictInsert history yesterday cnt)) := by
  constructor
  · intro a b
    rw [save_histories, List.mem_insertionSort]
    exact mem_dictInsert history yesterday cnt a b
  · exact List.sorted_insertionSort keyLe _

/-- Concrete run of C9: the cache holds two dates, yesterday's entry is
overwritten with 7; the older date keeps its value 3 in the saved file. -/
theorem history_cache_frame_witness :
    ("2022-10-10", 3)
      ∈ save_histories (dictInsert [("2022-10-10", 3), ("2022-10-11", 5)]
          "2022-10-11" 7)
    ∧ ("2022-10-11", 7)
      ∈ save_histories (dictInsert [("2022-10-10", 3), ("2022-10-11", 5)]
          "2022-10-11" 7) := by
  have h := history_cache_frame [("2022-10-10", 3), ("2022-10-11", 5)]
    "2022-10-11" 7
  exact ⟨(h.1 "2022-10-10" 3).mpr (Or.inl ⟨by decide, by decide⟩),
    (h.1 "2022-10-11" 7).mpr (Or.inr ⟨rfl, rfl⟩)⟩

/-! ## WeRead source (C10) -/

/-- Embeds `WeReadHistory.check_login` (gen.py lines 439-440): it returns
`True` unconditionally, whatever the supplied cookies are. -/
def weread_check_login : Bool := true

/-- Embeds the WeRead source's login sequence: `login_by_cookies` merges
whatever cookies were supplied (absent, empty or invalid) into the HTTP
client, and both `check_login` calls return `weread_check_login`, which
ignores the cookies. -/
def weread_login (cookies : List (String × String)) :
    Except String Unit × List Event :=
  login "weread_history" ⟨weread_check_login, weread_check_login⟩

/-- One response of the `readdetail` endpoint as `get_history` reads it:
`data.get("errcode", 0)` (an absent `errcode` counts as 0), the
`monthTimeSummary` payload returned on success, and `raw` standing for
the interpolated `{data}` text of the failure message. -/
structure WereadResp where
  errcode : Option Int
  monthTimeSummary : List Int
  raw : String
  deriving DecidableEq, Repr

/-- `data.get("errcode", 0)`. -/
def effErrcode (r : WereadResp) : Int := r.errcode.getD 0

/-- Embeds `WeReadHistory.get_history` (gen.py lines 442-451): fetch the
read detail; on errcode -2012 with fewer than 2 retries spent, touch the
base url and retry; on the third consecutive -2012 raise `LoginFailed`;
otherwise return `monthTimeSummary`.  `resp n` is the response the
endpoint gives to the (n+1)-th fetch. -/
def get_history (resp : Nat → WereadResp) (retries : Nat) :
    Except String (List Int) :=
  if effErrcode (resp retries) = -2012 then
    if h : retries < 2 then get_history resp (retries + 1)
    else Except.error
      (loginFailedMsg ("get weread history failed: " ++ (resp retries).raw) none)
  else Except.ok (resp retries).monthTimeSummary
termination_by 3 - retries
decreasing_by omega

/-- C10: the WeRead source's login always succeeds after the cookie
attempt, for every cookie input — `check_login` is unconditionally true —
so the credential step never runs and `login` never raises; an
authentication failure can only surface from `get_history`, which returns
the first non-(-2012) response among at most three fetches (two retries)
and raises `LoginFailed` only when all three answer errcode -2012. -/
theorem weread_always_authenticated (cookies : List (String × String))
    (resp : Nat → WereadResp) :
    (weread_login cookies).1 = Except.ok ()
    ∧ Event.credentialAttempt ∉ (weread_login cookies).2
    ∧ get_history resp 0
        = (if effErrcode (resp 0) ≠ -2012 then
             Except.ok (resp 0).monthTimeSummary
           else if effErrcode (resp 1) ≠ -2012 then
             Except.ok (resp 1).monthTimeSummary
           else if effErrcode (resp 2) ≠ -2012 then
             Except.ok (resp 2).monthTimeSummary
           else Except.error
             (loginFailedMsg ("get weread history failed: " ++ (resp 2).raw)
               none)) := by
  refine ⟨by simp [weread_login, login, weread_check_login],
    by simp [weread_login, login, weread_check_login], ?_⟩
  by_cases h0 : effErrcode (resp 0) = -2012
  · by_cases h1 : effErrcode (resp 1) = -2012
    · by_cases h2 : effErrcode (resp 2) = -2012
      · rw [get_history, if_pos h0, dif_pos (by omega),
          get_history, if_pos h1, dif_pos (by omega),
          get_history, if_pos h2, dif_neg (by omega)]
        simp [h0, h1, h2]
      · rw [get_history, if_pos h0, dif_pos (by omega),
          get_history, if_pos h1, dif_pos (by omega),
          get_history, if_neg h2]
        simp [h0, h1, h2]
    · rw [get_history, if_pos h0, dif_pos (by omega), get_history, if_neg h1]
      simp [h0, h1]
  · rw [get_history, if_neg h0]
    simp [h0]

/-- Concrete run of C10: empty cookies still log in; three straight
-2012 responses make `get_history` raise `LoginFailed`. -/
theorem weread_always_authenticated_witness :
    (weread_login []).1 = Except.ok ()
    ∧ get_history (fun _ => ⟨some (-2012), [], "E"⟩) 0
        = Except.error
            (loginFailedMsg ("get weread history failed: " ++ "E") none) := by
  have h := weread_always_authenticated [] (fun _ => ⟨some (-2012), [], "E"⟩)
  refine ⟨h.1, ?_⟩
  rw [h.2.2]
  simp [effErrcode]

end Gen
